import Mathlib

/-!
Shallow embedding of the uav_4g_mqtt firmware core
(src/Core/Src/uart_dma.c, a7600_mqtt.c, mavlink_bridge.c) and proofs of the
spec claims about it.  Buffers are modelled as lists, machine bytes as `Nat`
(with `< 256` hypotheses where the C type `uint8_t` matters), C strings as
`String`/`List Char`, and the modem / response stream as explicit oracles.
-/

namespace Uav4g

/-! ### C string search (`strstr`) -/

/-- Model of "needle occurs at the head of hay" used by `strstrB`. -/
def headMatch : List Char → List Char → Bool
  | [], _ => true
  | _ :: _, [] => false
  | a :: as, b :: bs => a == b && headMatch as bs

/-- Model of C `strstr(hay, needle) != NULL`: the needle occurs somewhere in
the haystack. -/
def strstrB (needle : List Char) : List Char → Bool
  | [] => headMatch needle []
  | h :: t => headMatch needle (h :: t) || strstrB needle t

/-- `strstr` on `String`s, argument order `haystack`, `needle` as in C. -/
def containsStr (hay needle : String) : Bool :=
  strstrB needle.toList hay.toList

/-! ### uart_dma.c : ring-buffer receive side

The DMA hardware advances a write cursor (`dma_pos`, derived from the DMA
remaining-count register); software owns `rx_read_pos`.  The buffer content
is modelled as a function `Nat → Nat` giving the byte at each index of the
512-byte circular buffer. -/

def UART_DMA_RX_BUFFER_SIZE : Nat := 512
def UART_DMA_TX_BUFFER_SIZE : Nat := 512

/-- `UART_DMA_Available` from uart_dma.c: bytes between the software read
cursor and the hardware write cursor, handling wraparound. -/
def UART_DMA_Available (dma_pos read_pos : Nat) : Nat :=
  if read_pos ≤ dma_pos then dma_pos - read_pos
  else UART_DMA_RX_BUFFER_SIZE - read_pos + dma_pos

/-- The copy loop inside `UART_DMA_Read`: read `n` bytes starting at `pos`,
advancing the cursor modulo the buffer size; returns the bytes and the final
cursor. -/
def readLoop (buf : Nat → Nat) (pos : Nat) : Nat → List Nat × Nat
  | 0 => ([], pos)
  | n + 1 =>
    let b := buf pos
    let r := readLoop buf ((pos + 1) % UART_DMA_RX_BUFFER_SIZE) n
    (b :: r.1, r.2)

/-- `UART_DMA_Read` from uart_dma.c: copies `min(len, available)` bytes from
the read cursor (wrapping), advances the cursor, returns
`(data, new read cursor, count)`. -/
def UART_DMA_Read (buf : Nat → Nat) (dma_pos read_pos len : Nat) :
    List Nat × Nat × Nat :=
  let available := UART_DMA_Available dma_pos read_pos
  let to_read := if len < available then len else available
  let r := readLoop buf read_pos to_read
  (r.1, r.2, to_read)

/-- HAL status codes used by the transmit path. -/
inductive HALStatus where
  | ok
  | busy
  deriving DecidableEq, Repr

/-- `UART_DMA_Transmit` from uart_dma.c.  `data` is the `len` bytes at the
caller's pointer.  The HAL DMA start (`HAL_UART_Transmit_DMA`, external
library code) is modelled as accepting the transfer.  Returns the HAL
status, the bytes copied into the TX buffer and handed to hardware, and the
new `tx_busy` flag. -/
def UART_DMA_Transmit (tx_busy : Bool) (data : List Nat) :
    HALStatus × List Nat × Bool :=
  if data.length = 0 then (HALStatus.ok, [], tx_busy)
  else if tx_busy then (HALStatus.busy, [], tx_busy)
  else
    let to_send := if data.length > UART_DMA_TX_BUFFER_SIZE then
      UART_DMA_TX_BUFFER_SIZE else data.length
    (HALStatus.ok, data.take to_send, true)

/-! ### mavlink_bridge.c : codecs -/

def hex_table : List Char := "0123456789ABCDEF".toList

def hexDigit (n : Nat) : Char := hex_table.getD n '0'

/-- `to_hex` from mavlink_bridge.c: each byte to two uppercase hex digits. -/
def to_hex : List Nat → List Char
  | [] => []
  | b :: t => hexDigit (b / 16 % 16) :: hexDigit (b % 16) :: to_hex t

/-- Hex digit value used by `from_hex` (invalid characters map to 0, as in
the C conditional chain). -/
def hexVal (c : Char) : Nat :=
  if '0' ≤ c ∧ c ≤ '9' then c.toNat - 48
  else if 'A' ≤ c ∧ c ≤ 'F' then c.toNat - 65 + 10
  else if 'a' ≤ c ∧ c ≤ 'f' then c.toNat - 97 + 10
  else 0

/-- `from_hex` from mavlink_bridge.c: consume complete pairs of characters;
a final unpaired character is ignored (`if (i + 1 >= len) break`). -/
def from_hex : List Char → List Nat
  | c1 :: c2 :: t => (hexVal c1 * 16 + hexVal c2) :: from_hex t
  | _ => []

def b64_table : List Char :=
  "ABCDEFGHIJKLMNOPQRSTUVWXYZabcdefghijklmnopqrstuvwxyz0123456789+/".toList

def b64Char (n : Nat) : Char := b64_table.getD n 'A'

/-- One iteration of the `to_base64` encode loop: three octets (zero-padded
past the end of the input, as in the C `i < len ? data[i++] : 0` reads) to
four alphabet characters. -/
def enc4 (a b c : Nat) : List Char :=
  let triple := a * 65536 + b * 256 + c
  [b64Char (triple / 262144 % 64), b64Char (triple / 4096 % 64),
   b64Char (triple / 64 % 64), b64Char (triple % 64)]

/-- The `to_base64` main loop: groups of three bytes, the last group
zero-padded. -/
def toB64Groups : List Nat → List Char
  | [] => []
  | [a] => enc4 a 0 0
  | [a, b] => enc4 a b 0
  | a :: b :: c :: t => enc4 a b c ++ toB64Groups t

/-- `to_base64` from mavlink_bridge.c: encode groups, then overwrite the
trailing one or two characters with padding according to `len % 3`. -/
def to_base64 (l : List Nat) : List Char :=
  let g := toB64Groups l
  if l.length % 3 = 1 then g.dropLast.dropLast ++ ['=', '=']
  else if l.length % 3 = 2 then g.dropLast ++ ['=']
  else g

/-- `b64_val` from mavlink_bridge.c (−1 marks a non-alphabet character). -/
def b64_val (c : Char) : Int :=
  if 'A' ≤ c ∧ c ≤ 'Z' then (c.toNat : Int) - 65
  else if 'a' ≤ c ∧ c ≤ 'z' then (c.toNat : Int) - 97 + 26
  else if '0' ≤ c ∧ c ≤ '9' then (c.toNat : Int) - 48 + 52
  else if c = '+' then 62
  else if c = '/' then 63
  else -1

/-- The skip loops inside `from_base64`: advance past characters that are
neither alphabet nor `'='`. -/
def b64Skip (l : List Char) : List Char :=
  l.dropWhile (fun c => b64_val c == -1 && c ≠ '=')

/-- Fetch the next significant character for `from_base64`, or `none` if the
input is exhausted (the C `if (i >= len) break`). -/
def nextTok (l : List Char) : Option (Char × List Char) :=
  match b64Skip l with
  | [] => none
  | c :: r => some (c, r)

/-- The bytes one `from_base64` loop iteration emits for the group
`c1 c2 c3 c4` (`'='` contributes value 0 in positions 3 and 4; nothing is
emitted unless the first two values are non-negative; `'='` in position 3
or 4 suppresses the later output bytes). -/
def b64Group (c1 c2 c3 c4 : Char) : List Nat :=
  let v1 := b64_val c1
  let v2 := b64_val c2
  let v3 := if c3 = '=' then 0 else b64_val c3
  let v4 := if c4 = '=' then 0 else b64_val c4
  if 0 ≤ v1 ∧ 0 ≤ v2 then
    let n1 := v1.toNat
    let n2 := v2.toNat
    let n3 := v3.toNat
    let n4 := v4.toNat
    (n1 * 4 + n2 / 16 % 4) ::
      (if c3 ≠ '=' then
        (n2 % 16 * 16 + n3 / 4 % 16) ::
          (if c4 ≠ '=' then [n3 % 4 * 64 + n4 % 64] else [])
      else [])
  else []

/-- The `from_base64` loop: read four significant characters, break on
exhaustion, emit the group's bytes, continue.  Each iteration consumes at
least one character, so the input length bounds the iteration count and
serves as structural fuel. -/
def from_base64_go : Nat → List Char → List Nat
  | 0, _ => []
  | fuel + 1, l =>
    match nextTok l with
    | none => []
    | some (c1, r1) =>
      match nextTok r1 with
      | none => []
      | some (c2, r2) =>
        match nextTok r2 with
        | none => []
        | some (c3, r3) =>
          match nextTok r3 with
          | none => []
          | some (c4, r4) =>
            b64Group c1 c2 c3 c4 ++ from_base64_go fuel r4

/-- `from_base64` from mavlink_bridge.c. -/
def from_base64 (l : List Char) : List Nat :=
  from_base64_go l.length l

/-! ### a7600_mqtt.c : command channel (`wait_response` / `send_and_wait`)

Time is modelled by poll rounds: the loop body runs at elapsed times
0, 10, 20, … ms (each iteration ends in `HAL_Delay(10)`; reads and checks
take no modelled time).  `stream n` is the chunk of modem bytes newly
available at poll round `n`. -/

/-- A read into the response buffer, clamped to the remaining space
(`sizeof(rx_buffer) - rx_len - 1` with a 512-byte buffer), as in
`wait_response` and `A7600_MQTT_Process`. -/
def clampApp (buf chunk : List Char) : List Char :=
  buf ++ chunk.take (512 - buf.length - 1)

/-- The polling loop of `wait_response`: while elapsed time is below the
timeout, append the newly available bytes, then look for the expected
substring (success) and then for "ERROR" (failure); time out otherwise.
Returns (result, final buffer, exit round). -/
def wrGo (stream : Nat → List Char) (expected : List Char) (timeout : Nat)
    (round : Nat) (buf : List Char) : Bool × List Char × Nat :=
  if 10 * round < timeout then
    let buf1 := clampApp buf (stream round)
    if strstrB expected buf1 then (true, buf1, round)
    else if strstrB "ERROR".toList buf1 then (false, buf1, round)
    else wrGo stream expected timeout (round + 1) buf1
  else (false, buf, round)
  termination_by timeout - 10 * round
  decreasing_by omega

/-- `wait_response` from a7600_mqtt.c, starting from the handle's current
response buffer. -/
def wait_response (stream : Nat → List Char) (expected : List Char)
    (timeout : Nat) (buf : List Char) : Bool × List Char × Nat :=
  wrGo stream expected timeout 0 buf

/-- `send_and_wait` from a7600_mqtt.c: `send_at_cmd` clears the response
buffer and transmits the command (the transmission itself is outside the
response model — `stream` is the resulting response byte stream), then
`wait_response` runs on the cleared buffer. -/
def send_and_wait (stream : Nat → List Char) (expected : List Char)
    (timeout : Nat) : Bool × List Char × Nat :=
  wrGo stream expected timeout 0 []

/-- The accumulated (clamped) response buffer after poll rounds `0..n`. -/
def bufAt (stream : Nat → List Char) : Nat → List Char
  | 0 => clampApp [] (stream 0)
  | n + 1 => clampApp (bufAt stream n) (stream (n + 1))

/-! ### a7600_mqtt.c : session state machine

At the `A7600_MQTT_Connect` level each `send_and_wait` call is abstracted by
a modem oracle giving, per (command, expected-substring) pair, the verdict
of the exchange and the response buffer it leaves behind.  The trace of
issued exchanges is recorded so that "phases after N are never invoked" is
expressible. -/

inductive MQTT_State where
  | idle | starting | acquiring | sslConfig | connecting | connected
  | subscribing | publishing | disconnecting | error
  deriving DecidableEq, Repr

inductive MQTT_Result where
  | ok | error | busy | timeout | notConnected
  deriving DecidableEq, Repr

structure MQTT_Config where
  broker : String
  port : Nat
  username : String
  password : String
  client_id : String
  use_ssl : Bool
  keepalive : Nat

/-- The handle fields the claims are about (`A7600_MQTT_Handle_t`). -/
structure Handle where
  state : MQTT_State
  connected : Bool
  error_step : Nat
  last_response : List Char
  rx_buffer : List Char
  deriving DecidableEq, Repr

/-- Deterministic simulated modem: per (command, expected) pair, the verdict
of `send_and_wait` and the response buffer it leaves in the handle. -/
structure ModemEnv where
  ok : String → String → Bool
  buf : String → String → List Char

/-- Session-level view of one `send_and_wait` call: the buffer is cleared
then filled with the modem's response; the exchange is recorded. -/
def connect_exch (env : ModemEnv) (cmd expected : String)
    (s : Handle × List (String × String)) :
    Bool × (Handle × List (String × String)) :=
  (env.ok cmd expected,
   ({ s.1 with rx_buffer := env.buf cmd expected }, s.2 ++ [(cmd, expected)]))

/-- Error exit of a bring-up phase: record the step, snapshot the response
(`strncpy` bounded to 127 characters), enter the error state. -/
def connFail (s : Handle) (step : Nat) : Handle :=
  { s with error_step := step, last_response := s.rx_buffer.take 127,
           state := MQTT_State.error }

/-- The bounded retry loop of bring-up phase 1 (`retry = 3; while ...`). -/
def tryN (env : ModemEnv) (cmd expected : String) :
    Nat → Handle × List (String × String) →
    Bool × (Handle × List (String × String))
  | 0, s => (false, s)
  | n + 1, s =>
    let r := connect_exch env cmd expected s
    if r.1 then (true, r.2) else tryN env cmd expected n r.2

/-- The registration polling loops of phases 3 and 4: each round issues the
query with the "home" code, and only on failure with the "roaming" code
(C short-circuit `||`). -/
def poll2 (env : ModemEnv) (cmd e1 e2 : String) :
    Nat → Handle × List (String × String) →
    Bool × (Handle × List (String × String))
  | 0, s => (false, s)
  | n + 1, s =>
    let r1 := connect_exch env cmd e1 s
    if r1.1 then (true, r1.2)
    else
      let r2 := connect_exch env cmd e2 r1.2
      if r2.1 then (true, r2.2) else poll2 env cmd e1 e2 n r2.2

def cmdAT : String := "AT\r\n"
def cmdCPIN : String := "AT+CPIN?\r\n"
def cmdCREG : String := "AT+CREG?\r\n"
def cmdCGREG : String := "AT+CGREG?\r\n"
def cmdCGACTdeact : String := "AT+CGACT=0,1\r\n"
def cmdCGDCONT : String := "AT+CGDCONT=1,\"IP\",\"internet\"\r\n"
def cmdCGACTact : String := "AT+CGACT=1,1\r\n"
def cmdCSQ : String := "AT+CSQ\r\n"
def cmdDISC : String := "AT+CMQTTDISC=0,60\r\n"
def cmdREL : String := "AT+CMQTTREL=0\r\n"
def cmdSTOP : String := "AT+CMQTTSTOP\r\n"
def cmdSTART : String := "AT+CMQTTSTART\r\n"
def cmdSSLVER : String := "AT+CSSLCFG=\"sslversion\",0,4\r\n"
def cmdSSLAUTH : String := "AT+CSSLCFG=\"authmode\",0,0\r\n"
def cmdSSLSNI : String := "AT+CSSLCFG=\"enableSNI\",0,1\r\n"
def cmdSSLTIME : String := "AT+CSSLCFG=\"ignorelocaltime\",0,1\r\n"
def cmdSSLBIND : String := "AT+CMQTTSSLCFG=0,0\r\n"

def cmdACCQ (cfg : MQTT_Config) : String :=
  "AT+CMQTTACCQ=0,\"" ++ cfg.client_id ++ "\",1\r\n"

def cmdCONNECT (cfg : MQTT_Config) : String :=
  "AT+CMQTTCONNECT=0,\"tcp://" ++ cfg.broker ++ ":" ++ toString cfg.port ++
    "\"," ++ toString cfg.keepalive ++ ",1,\"" ++ cfg.username ++ "\",\"" ++
    cfg.password ++ "\"\r\n"

/-- `A7600_MQTT_Connect` from a7600_mqtt.c over a simulated modem: the ten
bring-up phases in order, with per-phase retries, non-fatal informational
exchanges (deactivation, APN, signal quality, stale-session teardown, the
first four SSL options), the "already started" recovery of phase 7, and the
optional SSL phase 9.  Returns the final handle and the exchange trace. -/
def A7600_MQTT_Connect (cfg : MQTT_Config) (env : ModemEnv) (h0 : Handle) :
    Handle × List (String × String) :=
  let s0 : Handle × List (String × String) :=
    ({ h0 with error_step := 0, last_response := [],
               state := MQTT_State.starting }, [])
  let r1 := tryN env cmdAT "OK" 3 s0
  if !r1.1 then (connFail r1.2.1 1, r1.2.2)
  else
  let r2 := connect_exch env cmdCPIN "+CPIN: READY" r1.2
  if !r2.1 then (connFail r2.2.1 2, r2.2.2)
  else
  let r3 := poll2 env cmdCREG "+CREG: 0,1" "+CREG: 0,5" 30 r2.2
  if !r3.1 then (connFail r3.2.1 3, r3.2.2)
  else
  let r4 := poll2 env cmdCGREG "+CGREG: 0,1" "+CGREG: 0,5" 30 r3.2
  if !r4.1 then (connFail r4.2.1 4, r4.2.2)
  else
  let r5a := connect_exch env cmdCGACTdeact "OK" r4.2
  let r5b := connect_exch env cmdCGDCONT "OK" r5a.2
  let r5 := connect_exch env cmdCGACTact "OK" r5b.2
  if !r5.1 then (connFail r5.2.1 5, r5.2.2)
  else
  let r6 := connect_exch env cmdCSQ "OK" r5.2
  let r7a := connect_exch env cmdDISC "OK" r6.2
  let r7b := connect_exch env cmdREL "OK" r7a.2
  let r7c := connect_exch env cmdSTOP "OK" r7b.2
  let r7 := connect_exch env cmdSTART "OK" r7c.2
  if !r7.1 && !(strstrB "+CMQTTSTART: 0".toList r7.2.1.rx_buffer) then
    (connFail r7.2.1 7, r7.2.2)
  else
  let s8 : Handle × List (String × String) :=
    ({ r7.2.1 with state := MQTT_State.acquiring }, r7.2.2)
  let r8 := connect_exch env (cmdACCQ cfg) "OK" s8
  if !r8.1 then (connFail r8.2.1 8, r8.2.2)
  else
  let r9 :=
    if cfg.use_ssl then
      let t0 : Handle × List (String × String) :=
        ({ r8.2.1 with state := MQTT_State.sslConfig }, r8.2.2)
      let t1 := connect_exch env cmdSSLVER "OK" t0
      let t2 := connect_exch env cmdSSLAUTH "OK" t1.2
      let t3 := connect_exch env cmdSSLSNI "OK" t2.2
      let t4 := connect_exch env cmdSSLTIME "OK" t3.2
      connect_exch env cmdSSLBIND "OK" t4.2
    else (true, r8.2)
  if !r9.1 then (connFail r9.2.1 9, r9.2.2)
  else
  let s10 : Handle × List (String × String) :=
    ({ r9.2.1 with state := MQTT_State.connecting }, r9.2.2)
  let r10 := connect_exch env (cmdCONNECT cfg) "+CMQTTCONNECT: 0,0" s10
  if !r10.1 then (connFail r10.2.1 10, r10.2.2)
  else
  ({ r10.2.1 with state := MQTT_State.connected, connected := true }, r10.2.2)

/-- `A7600_MQTT_Disconnect` from a7600_mqtt.c: best-effort teardown whose
exchange results are discarded, then Idle / not connected, returning OK. -/
def A7600_MQTT_Disconnect (env : ModemEnv) (h : Handle) :
    MQTT_Result × Handle × List (String × String) :=
  let s0 : Handle × List (String × String) :=
    ({ h with state := MQTT_State.disconnecting }, [])
  let r1 := connect_exch env cmdDISC "OK" s0
  let r2 := connect_exch env cmdREL "OK" r1.2
  let r3 := connect_exch env cmdSTOP "OK" r2.2
  (MQTT_Result.ok,
   { r3.2.1 with state := MQTT_State.idle, connected := false }, r3.2.2)

/-! ### a7600_mqtt.c : publish -/

/-- One transmission issued by `A7600_MQTT_Publish`: an AT command / topic
string, or the raw payload bytes. -/
inductive TxItem where
  | cmd (s : String)
  | raw (bytes : List Nat)
  deriving DecidableEq, Repr

def topicCmd (topic : String) : String :=
  "AT+CMQTTTOPIC=0," ++ toString topic.length ++ "\r\n"

def payloadCmd (n : Nat) : String :=
  "AT+CMQTTPAYLOAD=0," ++ toString n ++ "\r\n"

def pubExecCmd (qos : Nat) : String :=
  "AT+CMQTTPUB=0," ++ toString qos ++ ",60\r\n"

/-- `A7600_MQTT_Publish` from a7600_mqtt.c.  `env k` is the verdict of the
`k`-th response wait of this call (topic-length prompt, topic ack,
payload-length prompt, payload ack, publish ack).  Returns the result, the
handle, and the ordered transmissions. -/
def A7600_MQTT_Publish (h : Handle) (topic : String) (payload : List Nat)
    (qos : Nat) (env : Nat → Bool) : MQTT_Result × Handle × List TxItem :=
  if !h.connected then (MQTT_Result.notConnected, h, [])
  else
    let s := { h with state := MQTT_State.publishing }
    if !env 0 then
      (MQTT_Result.error, { s with state := MQTT_State.connected },
       [TxItem.cmd (topicCmd topic)])
    else if !env 1 then
      (MQTT_Result.error, { s with state := MQTT_State.connected },
       [TxItem.cmd (topicCmd topic), TxItem.cmd topic])
    else if !env 2 then
      (MQTT_Result.error, { s with state := MQTT_State.connected },
       [TxItem.cmd (topicCmd topic), TxItem.cmd topic,
        TxItem.cmd (payloadCmd payload.length)])
    else if !env 3 then
      (MQTT_Result.error, { s with state := MQTT_State.connected },
       [TxItem.cmd (topicCmd topic), TxItem.cmd topic,
        TxItem.cmd (payloadCmd payload.length), TxItem.raw payload])
    else if !env 4 then
      (MQTT_Result.error, { s with state := MQTT_State.connected },
       [TxItem.cmd (topicCmd topic), TxItem.cmd topic,
        TxItem.cmd (payloadCmd payload.length), TxItem.raw payload,
        TxItem.cmd (pubExecCmd qos)])
    else
      (MQTT_Result.ok, { s with state := MQTT_State.connected },
       [TxItem.cmd (topicCmd topic), TxItem.cmd topic,
        TxItem.cmd (payloadCmd payload.length), TxItem.raw payload,
        TxItem.cmd (pubExecCmd qos)])

/-- The full transmission sequence of a successful publish. -/
def publishTrace (topic : String) (payload : List Nat) (qos : Nat) :
    List TxItem :=
  [TxItem.cmd (topicCmd topic), TxItem.cmd topic,
   TxItem.cmd (payloadCmd payload.length), TxItem.raw payload,
   TxItem.cmd (pubExecCmd qos)]

/-! ### a7600_mqtt.c : inbound processing -/

/-- `A7600_MQTT_Process` from a7600_mqtt.c: while connected, append the
newly available bytes (clamped, as in `wait_response`); if the accumulated
buffer holds the `+CMQTTRXSTART:` marker then, when the payload and end
markers are also present and a callback is registered, invoke the callback
with an EMPTY topic string and the whole accumulated buffer; clear the
buffer once the end marker is seen; a `+CMQTTCONNLOST:` marker drops the
connection.  Returns the handle and the callback invocations. -/
def A7600_MQTT_Process (h : Handle) (hasCb : Bool) (chunk : List Char) :
    Handle × List (String × List Char) :=
  if !h.connected then (h, [])
  else if chunk.length = 0 then (h, [])
  else
    let buf := clampApp h.rx_buffer chunk
    let startFound := strstrB "+CMQTTRXSTART:".toList buf
    let payloadFound := strstrB "+CMQTTRXPAYLOAD:".toList buf
    let endFound := strstrB "+CMQTTRXEND:".toList buf
    let events :=
      if startFound && payloadFound && endFound && hasCb
      then [("", buf)] else []
    let buf2 := if startFound && endFound then [] else buf
    if strstrB "+CMQTTCONNLOST:".toList buf2 then
      ({ h with connected := false, state := MQTT_State.idle,
                rx_buffer := [] }, events)
    else
      ({ h with rx_buffer := buf2 }, events)

/-! ### mavlink_bridge.c : frame synchronizer and inbound handler -/

/-- Total MAVLink v2 frame length from the length byte and the
incompatibility-flags byte (header 10 + payload + checksum 2, plus a
13-byte signature when bit 0 of the flags is set). -/
def packetLen (b1 b2 : Nat) : Nat :=
  10 + b1 + 2 + (if b2 % 2 = 1 then 13 else 0)

/-- The frame-parsing loop of `MavlinkBridge_Process` (step 3 of the
function), over the accumulated buffer: drop a leading non-magic byte;
wait for at least 3 bytes; drop one byte when the computed length exceeds
the 300-byte sanity ceiling; on a fully buffered frame, publish its Base64
encoding (the build selects `ENCODE_BASE64`) and remove exactly the frame's
bytes.  Returns the published encodings in order and the remaining
buffer. -/
def MavlinkBridge_Process (buf : List Nat) : List (List Char) × List Nat :=
  match buf with
  | [] => ([], [])
  | b :: rest =>
    if b = 253 then
      if rest.length < 2 then ([], b :: rest)
      else
        let b1 := rest.getD 0 0
        let b2 := rest.getD 1 0
        let plen := packetLen b1 b2
        if 300 < plen then MavlinkBridge_Process rest
        else if plen ≤ (b :: rest).length then
          let r := MavlinkBridge_Process ((b :: rest).drop plen)
          (to_base64 ((b :: rest).take plen) :: r.1, r.2)
        else ([], b :: rest)
    else MavlinkBridge_Process rest
  termination_by buf.length
  decreasing_by
    · simp
    · simp [List.length_drop, packetLen] <;> omega
    · simp

/-- `MavlinkBridge_OnMessage` from mavlink_bridge.c: forward only when the
topic contains "mavlink/rx"; decode the payload with the configured codec
(Base64 in this build) and, when the decode is non-empty, write the bytes
to the telemetry UART (`some bytes` is the write request; `none` means
nothing is written). -/
def MavlinkBridge_OnMessage (topic : String) (payload : List Char) :
    Option (List Nat) :=
  if containsStr topic "mavlink/rx" then
    let decoded := from_base64 payload
    if decoded.length > 0 then some decoded else none
  else none

/-- The composition app.c wires up: `A7600_MQTT_Process` dispatches inbound
messages to the registered callback (`mqtt_message_callback`), which
forwards to `MavlinkBridge_OnMessage`. -/
def processThenBridge (h : Handle) (chunk : List Char) :
    Handle × List (Option (List Nat)) :=
  let r := A7600_MQTT_Process h true chunk
  (r.1, r.2.map (fun e => MavlinkBridge_OnMessage e.1 e.2))

/-! ### Reference data for the claim theorems: configurations, handles,
simulated environments and concrete inputs -/

/-- `clear_rx_buffer` from a7600_mqtt.c: the response buffer becomes empty
(all zero bytes, `rx_len = 0`). -/
def clear_rx_buffer : List Char := []

/-- The response buffer a `wait_response` run holds on entry to poll round
`r` (empty before round 0). -/
def bufPre (stream : Nat → List Char) : Nat → List Char
  | 0 => []
  | n + 1 => bufAt stream n

/-- A reference configuration in the shape app.c builds (TLS enabled, as in
`App_Init`). -/
def defCfg : MQTT_Config :=
  { broker := "broker.example", port := 8883, username := "user",
    password := "pass", client_id := "uav", use_ssl := true, keepalive := 60 }

/-- The handle state `A7600_MQTT_Init` leaves behind. -/
def initHandle : Handle :=
  { state := MQTT_State.idle, connected := false, error_step := 0,
    last_response := [], rx_buffer := [] }

/-- A connected session (state after a successful bring-up). -/
def connHandle : Handle :=
  { state := MQTT_State.connected, connected := true, error_step := 0,
    last_response := [], rx_buffer := [] }

/-- An idle, unconnected session. -/
def idleHandle : Handle :=
  { state := MQTT_State.idle, connected := false, error_step := 0,
    last_response := [], rx_buffer := [] }

/-- Bring-up phase that a command string belongs to (per the step structure
of `A7600_MQTT_Connect`). -/
def phaseOfCmd (cfg : MQTT_Config) (c : String) : Nat :=
  if c = cmdAT then 1
  else if c = cmdCPIN then 2
  else if c = cmdCREG then 3
  else if c = cmdCGREG then 4
  else if c = cmdCGACTdeact ∨ c = cmdCGDCONT ∨ c = cmdCGACTact then 5
  else if c = cmdCSQ then 6
  else if c = cmdDISC ∨ c = cmdREL ∨ c = cmdSTOP ∨ c = cmdSTART then 7
  else if c = cmdACCQ cfg then 8
  else if c = cmdSSLVER ∨ c = cmdSSLAUTH ∨ c = cmdSSLSNI ∨ c = cmdSSLTIME ∨
            c = cmdSSLBIND then 9
  else if c = cmdCONNECT cfg then 10
  else 0

/-- Simulated modem that fails exactly the exchanges of bring-up phase `n`
and answers every other exchange positively (empty response buffers, so the
phase-7 "already started" recovery does not mask an injected failure). -/
def injEnv (cfg : MQTT_Config) (n : Nat) : ModemEnv :=
  { ok := fun c _ => !(phaseOfCmd cfg c == n), buf := fun _ _ => [] }

/-- Simulated modem that answers every exchange positively. -/
def allOkEnv : ModemEnv := { ok := fun _ _ => true, buf := fun _ _ => [] }

/-- Response stream delivering "ERROR" and then the expected token inside
one poll-round chunk. -/
def ceStream : Nat → List Char :=
  fun n => if n = 0 then "ERROR OK".toList else []

/-- A valid unsigned MAVLink v2 frame of payload length 9: 21 bytes. -/
def mavFrame1 : List Nat :=
  [253, 9, 0, 4, 5, 6, 7, 8, 9, 10,
   11, 12, 13, 14, 15, 16, 17, 18, 19, 20, 21]

/-- A valid signed MAVLink v2 frame of payload length 0: 25 bytes
(incompatibility flag bit 0 set, 13-byte signature). -/
def mavFrame2 : List Nat :=
  [253, 0, 1, 4, 5, 6, 7, 8, 9, 10, 20, 21,
   1, 2, 3, 4, 5, 6, 7, 8, 9, 10, 11, 12, 13]

/-- A connected session about to process an inbound message. -/
def c1Handle : Handle :=
  { state := MQTT_State.connected, connected := true, error_step := 0,
    last_response := [], rx_buffer := [] }

/-- A modem chunk carrying one complete inbound publication for the
subscribed topic, with a Base64 transport payload, in the framing
`A7600_MQTT_Process` looks for. -/
def c1Chunk : List Char :=
  ("+CMQTTRXSTART: 0,16,8\r\n+CMQTTRXTOPIC: 16,uav4g/mavlink/rx\r\n" ++
   "+CMQTTRXPAYLOAD: 0,8\r\n/RwAAAAA\r\n+CMQTTRXEND: 0\r\n").toList

/-! ### Theorems -/

theorem b64Skip_length_le (l : List Char) : (b64Skip l).length ≤ l.length := by
  unfold b64Skip
  induction l with
  | nil => simp
  | cons h t ih =>
    rw [List.dropWhile_cons]
    split
    · exact Nat.le_trans ih (by simp)
    · simp

theorem nextTok_length_lt {l : List Char} {c : Char} {r : List Char}
    (h : nextTok l = some (c, r)) : r.length < l.length := by
  unfold nextTok at h
  rcases hs : b64Skip l with _ | ⟨c0, r0⟩
  · rw [hs] at h; exact absurd h (by simp)
  · rw [hs] at h
    have hlen : (b64Skip l).length ≤ l.length := b64Skip_length_le l
    rw [hs] at hlen
    simp only [Option.some.injEq, Prod.mk.injEq] at h
    obtain ⟨hc, hr⟩ := h
    subst hr
    have hl : r0.length + 1 ≤ l.length := by simpa using hlen
    omega


/-- C8: A7600_MQTT_Disconnect never fails outward: whatever the teardown
exchanges do, it returns Ok with state Idle and connected = false. -/
theorem c8_disconnect_never_fails (env : ModemEnv) (h : Handle) :
    (A7600_MQTT_Disconnect env h).1 = MQTT_Result.ok ∧
    (A7600_MQTT_Disconnect env h).2.1.state = MQTT_State.idle ∧
    (A7600_MQTT_Disconnect env h).2.1.connected = false :=
  ⟨rfl, rfl, rfl⟩

/-- C10: a transmit request longer than the 512-byte TX buffer, issued while
the transmit path is idle, copies only the first 512 bytes yet reports
success for the whole request. -/
theorem c10_transmit_truncates (data : List Nat) (hlen : 512 < data.length) :
    (UART_DMA_Transmit false data).1 = HALStatus.ok ∧
    (UART_DMA_Transmit false data).2.1 = data.take 512 ∧
    (UART_DMA_Transmit false data).2.1.length = 512 ∧
    (UART_DMA_Transmit false data).2.2 = true := by
  unfold UART_DMA_Transmit UART_DMA_TX_BUFFER_SIZE
  have h0 : data.length ≠ 0 := by omega
  simp [h0, hlen, List.length_take]
  omega

theorem c10_transmit_truncates_witness :
    (UART_DMA_Transmit false (List.replicate 600 7)).1 = HALStatus.ok ∧
    (UART_DMA_Transmit false (List.replicate 600 7)).2.1 =
      (List.replicate 600 7).take 512 ∧
    (UART_DMA_Transmit false (List.replicate 600 7)).2.1.length = 512 ∧
    (UART_DMA_Transmit false (List.replicate 600 7)).2.2 = true :=
  c10_transmit_truncates (List.replicate 600 7) (by simp only [List.length_replicate]; omega)

theorem readLoop_spec (buf : Nat → Nat) :
    ∀ n pos, pos < 512 →
      (readLoop buf pos n).2 = (pos + n) % 512 ∧
      (readLoop buf pos n).1.length = n ∧
      (∀ i, i < n → (readLoop buf pos n).1.getD i 0 = buf ((pos + i) % 512)) := by
  intro n
  induction n with
  | zero =>
    intro pos hp
    refine ⟨?_, rfl, ?_⟩
    · simp [readLoop, Nat.mod_eq_of_lt hp]
    · intro i hi; omega
  | succ n ih =>
    intro pos hp
    have hp1 : (pos + 1) % 512 < 512 := Nat.mod_lt _ (by omega)
    obtain ⟨h2, hlen, hget⟩ := ih ((pos + 1) % 512) hp1
    refine ⟨?_, ?_, ?_⟩
    · show (readLoop buf ((pos + 1) % 512) n).2 = (pos + (n + 1)) % 512
      rw [h2, Nat.mod_add_mod]
      congr 1
      omega
    · simp [readLoop, UART_DMA_RX_BUFFER_SIZE, hlen]
    · intro i hi
      match i with
      | 0 =>
        show buf pos = buf ((pos + 0) % 512)
        rw [Nat.add_zero, Nat.mod_eq_of_lt hp]
      | i + 1 =>
        show (readLoop buf ((pos + 1) % 512) n).1.getD i 0 = buf ((pos + (i + 1)) % 512)
        rw [hget i (by omega), Nat.mod_add_mod]
        congr 2
        omega

/-- C7: the receive ring buffer: available = (write − read) mod 512; a read
copies exactly min(maxLen, available) bytes starting at the read cursor
(wrapping), advances the cursor by exactly that amount, returns that amount,
and the available count afterwards reflects exactly what was consumed. -/
theorem c7_ring_buffer (buf : Nat → Nat) (w r len : Nat)
    (hw : w < 512) (hr : r < 512) :
    ((UART_DMA_Available w r : Int) = ((w : Int) - r) % 512) ∧
    (UART_DMA_Read buf w r len).2.2 = min len (UART_DMA_Available w r) ∧
    (UART_DMA_Read buf w r len).1.length = min len (UART_DMA_Available w r) ∧
    (∀ i, i < min len (UART_DMA_Available w r) →
      (UART_DMA_Read buf w r len).1.getD i 0 = buf ((r + i) % 512)) ∧
    (UART_DMA_Read buf w r len).2.1 =
      (r + min len (UART_DMA_Available w r)) % 512 ∧
    UART_DMA_Available w (UART_DMA_Read buf w r len).2.1 =
      UART_DMA_Available w r - min len (UART_DMA_Available w r) := by
  have havail : UART_DMA_Available w r =
      if r ≤ w then w - r else 512 - r + w := by
    simp [UART_DMA_Available, UART_DMA_RX_BUFFER_SIZE]
  have hA : UART_DMA_Available w r < 512 := by
    rw [havail]; split <;> omega
  have hmin : (if len < UART_DMA_Available w r then len
      else UART_DMA_Available w r) = min len (UART_DMA_Available w r) := by
    split <;> omega
  obtain ⟨h2, hlen, hget⟩ :=
    readLoop_spec buf (min len (UART_DMA_Available w r)) r hr
  have hread : UART_DMA_Read buf w r len =
      ((readLoop buf r (min len (UART_DMA_Available w r))).1,
       (readLoop buf r (min len (UART_DMA_Available w r))).2,
       min len (UART_DMA_Available w r)) := by
    simp only [UART_DMA_Read]
    rw [hmin]
  refine ⟨?_, ?_, ?_, ?_, ?_, ?_⟩
  · rw [havail]; split <;> omega
  · rw [hread]
  · rw [hread]; exact hlen
  · intro i hi; rw [hread]; exact hget i hi
  · rw [hread]; exact h2
  · rw [hread]
    show UART_DMA_Available w ((readLoop buf r (min len (UART_DMA_Available w r))).2) = _
    rw [h2]
    have hk : min len (UART_DMA_Available w r) ≤ UART_DMA_Available w r :=
      Nat.min_le_right _ _
    rw [havail] at hk ⊢
    unfold UART_DMA_Available UART_DMA_RX_BUFFER_SIZE
    split_ifs <;> omega

theorem c7_ring_buffer_witness :
    ((UART_DMA_Available 3 500 : Int) = ((3 : Int) - 500) % 512) ∧
    (UART_DMA_Read (fun i => i) 3 500 10).2.2 =
      min 10 (UART_DMA_Available 3 500) ∧
    (UART_DMA_Read (fun i => i) 3 500 10).1.length =
      min 10 (UART_DMA_Available 3 500) ∧
    (∀ i, i < min 10 (UART_DMA_Available 3 500) →
      (UART_DMA_Read (fun i => i) 3 500 10).1.getD i 0 = ((500 + i) % 512)) ∧
    (UART_DMA_Read (fun i => i) 3 500 10).2.1 =
      (500 + min 10 (UART_DMA_Available 3 500)) % 512 ∧
    UART_DMA_Available 3 (UART_DMA_Read (fun i => i) 3 500 10).2.1 =
      UART_DMA_Available 3 500 - min 10 (UART_DMA_Available 3 500) :=
  c7_ring_buffer (fun i => i) 3 500 10 (by omega) (by omega)

/-- C3: publish while not connected returns NotConnected without
transmitting; otherwise the five transmissions of the three stages run
strictly in order, the session always ends back in Connected, a failure at
the k-th response wait stops after exactly the first k+1 transmissions with
result Error, and full success transmits everything with result Ok. -/
theorem c3_publish_stages (h : Handle) (topic : String) (payload : List Nat)
    (qos : Nat) (env : Nat → Bool) :
    (h.connected = false →
      A7600_MQTT_Publish h topic payload qos env =
        (MQTT_Result.notConnected, h, [])) ∧
    (h.connected = true →
      (A7600_MQTT_Publish h topic payload qos env).2.1.state =
        MQTT_State.connected ∧
      (∀ k, k < 5 → (∀ j, j < k → env j = true) → env k = false →
        (A7600_MQTT_Publish h topic payload qos env).1 = MQTT_Result.error ∧
        (A7600_MQTT_Publish h topic payload qos env).2.2 =
          (publishTrace topic payload qos).take (k + 1)) ∧
      ((∀ j, j < 5 → env j = true) →
        (A7600_MQTT_Publish h topic payload qos env).1 = MQTT_Result.ok ∧
        (A7600_MQTT_Publish h topic payload qos env).2.2 =
          publishTrace topic payload qos)) := by
  constructor
  · intro hc
    simp [A7600_MQTT_Publish, hc]
  · intro hc
    refine ⟨?_, ?_, ?_⟩
    · simp only [A7600_MQTT_Publish, hc, Bool.not_true]
      split_ifs <;> simp_all
    · intro k hk hprev hfail
      interval_cases k
      · simp [A7600_MQTT_Publish, hc, hfail, publishTrace]
      · have e0 := hprev 0 (by omega)
        simp [A7600_MQTT_Publish, hc, e0, hfail, publishTrace]
      · have e0 := hprev 0 (by omega)
        have e1 := hprev 1 (by omega)
        simp [A7600_MQTT_Publish, hc, e0, e1, hfail, publishTrace]
      · have e0 := hprev 0 (by omega)
        have e1 := hprev 1 (by omega)
        have e2 := hprev 2 (by omega)
        simp [A7600_MQTT_Publish, hc, e0, e1, e2, hfail, publishTrace]
      · have e0 := hprev 0 (by omega)
        have e1 := hprev 1 (by omega)
        have e2 := hprev 2 (by omega)
        have e3 := hprev 3 (by omega)
        simp [A7600_MQTT_Publish, hc, e0, e1, e2, e3, hfail, publishTrace]
    · intro hall
      have e0 := hall 0 (by omega)
      have e1 := hall 1 (by omega)
      have e2 := hall 2 (by omega)
      have e3 := hall 3 (by omega)
      have e4 := hall 4 (by omega)
      simp [A7600_MQTT_Publish, hc, e0, e1, e2, e3, e4, publishTrace]

theorem c3_publish_stages_witness :
    A7600_MQTT_Publish idleHandle "t" [1] 0 (fun _ => false) =
      (MQTT_Result.notConnected, idleHandle, []) ∧
    (A7600_MQTT_Publish connHandle "t" [1] 0 (fun k => !(k == 0))).1 =
      MQTT_Result.error ∧
    (A7600_MQTT_Publish connHandle "t" [1] 0 (fun k => !(k == 0))).2.2 =
      (publishTrace "t" [1] 0).take 1 ∧
    (A7600_MQTT_Publish connHandle "t" [1] 0 (fun _ => true)).1 =
      MQTT_Result.ok := by
  refine ⟨?_, ?_, ?_, ?_⟩
  · exact (c3_publish_stages idleHandle "t" [1] 0 (fun _ => false)).1 rfl
  · exact (((c3_publish_stages connHandle "t" [1] 0 (fun k => !(k == 0))).2
      rfl).2.1 0 (by omega) (by intro j hj; omega) (by rfl)).1
  · exact (((c3_publish_stages connHandle "t" [1] 0 (fun k => !(k == 0))).2
      rfl).2.1 0 (by omega) (by intro j hj; omega) (by rfl)).2
  · exact (((c3_publish_stages connHandle "t" [1] 0 (fun _ => true)).2
      rfl).2.2 (fun j hj => rfl)).1

/-- C2 (amended): over the reference configuration, a simulated modem that
answers every exchange positively drives the bring-up to Connected with
error_step 0; and for every phase N whose failure the code treats as fatal
(all of 1..10 except the ignored signal-quality phase 6), injecting the
first failure at phase N ends with state Error, error_step = N, and no
exchange of any later phase ever issued. -/
theorem c2_connect_phases :
    (∀ env : ModemEnv, (∀ c e, env.ok c e = true) →
      (A7600_MQTT_Connect defCfg env initHandle).1.state =
        MQTT_State.connected ∧
      (A7600_MQTT_Connect defCfg env initHandle).1.connected = true ∧
      (A7600_MQTT_Connect defCfg env initHandle).1.error_step = 0) ∧
    (∀ n, n ∈ ([1, 2, 3, 4, 5, 7, 8, 9, 10] : List Nat) →
      (A7600_MQTT_Connect defCfg (injEnv defCfg n) initHandle).1.state =
        MQTT_State.error ∧
      (A7600_MQTT_Connect defCfg (injEnv defCfg n) initHandle).1.error_step
        = n ∧
      ((A7600_MQTT_Connect defCfg (injEnv defCfg n) initHandle).2.all
        (fun e => phaseOfCmd defCfg e.1 ≤ n)) = true) := by
  constructor
  · intro env henv
    simp [A7600_MQTT_Connect, tryN, poll2, connect_exch, henv, defCfg]
  · intro n hn
    fin_cases hn <;> decide

/-- C2 counterexample: injecting the failure at phase 6 (the signal-quality
query) does not produce state Error with error_step 6 — the query's result
is ignored and the bring-up completes. -/
theorem c2_connect_phases_counterexample :
    (A7600_MQTT_Connect defCfg (injEnv defCfg 6) initHandle).1.state =
      MQTT_State.connected ∧
    (A7600_MQTT_Connect defCfg (injEnv defCfg 6) initHandle).1.error_step
      = 0 ∧
    ¬((A7600_MQTT_Connect defCfg (injEnv defCfg 6) initHandle).1.state =
        MQTT_State.error ∧
      (A7600_MQTT_Connect defCfg (injEnv defCfg 6) initHandle).1.error_step
        = 6) := by
  decide

theorem c2_connect_phases_witness :
    ((A7600_MQTT_Connect defCfg allOkEnv initHandle).1.state =
        MQTT_State.connected ∧
      (A7600_MQTT_Connect defCfg allOkEnv initHandle).1.connected = true ∧
      (A7600_MQTT_Connect defCfg allOkEnv initHandle).1.error_step = 0) ∧
    ((A7600_MQTT_Connect defCfg (injEnv defCfg 2) initHandle).1.state =
        MQTT_State.error ∧
      (A7600_MQTT_Connect defCfg (injEnv defCfg 2) initHandle).1.error_step
        = 2 ∧
      ((A7600_MQTT_Connect defCfg (injEnv defCfg 2) initHandle).2.all
        (fun e => phaseOfCmd defCfg e.1 ≤ 2)) = true) :=
  ⟨c2_connect_phases.1 allOkEnv (fun _ _ => rfl),
   c2_connect_phases.2 2 (by decide)⟩

theorem clampApp_bufPre (stream : Nat → List Char) (r : Nat) :
    clampApp (bufPre stream r) (stream r) = bufAt stream r := by
  cases r <;> rfl

theorem wrGo_found (stream : Nat → List Char) (e : List Char) (T r : Nat)
    (buf : List Char) (hT : 10 * r < T)
    (hfound : strstrB e (clampApp buf (stream r)) = true) :
    wrGo stream e T r buf = (true, clampApp buf (stream r), r) := by
  conv_lhs => rw [wrGo]
  rw [if_pos hT]
  simp only [hfound, if_true]

theorem wrGo_err (stream : Nat → List Char) (e : List Char) (T r : Nat)
    (buf : List Char) (hT : 10 * r < T)
    (hnf : strstrB e (clampApp buf (stream r)) = false)
    (herr : strstrB "ERROR".toList (clampApp buf (stream r)) = true) :
    wrGo stream e T r buf = (false, clampApp buf (stream r), r) := by
  conv_lhs => rw [wrGo]
  rw [if_pos hT]
  simp only [hnf, herr, if_true, Bool.false_eq_true, if_false]

theorem wrGo_cont (stream : Nat → List Char) (e : List Char) (T r : Nat)
    (buf : List Char) (hT : 10 * r < T)
    (hnf : strstrB e (clampApp buf (stream r)) = false)
    (hne : strstrB "ERROR".toList (clampApp buf (stream r)) = false) :
    wrGo stream e T r buf =
      wrGo stream e T (r + 1) (clampApp buf (stream r)) := by
  conv_lhs => rw [wrGo]
  rw [if_pos hT]
  simp only [hnf, hne, Bool.false_eq_true, if_false]

theorem wrGo_stop (stream : Nat → List Char) (e : List Char) (T r : Nat)
    (buf : List Char) (hT : ¬(10 * r < T)) :
    wrGo stream e T r buf = (false, buf, r) := by
  conv_lhs => rw [wrGo]
  rw [if_neg hT]

theorem wrGo_quiet (stream : Nat → List Char) (e : List Char) (T : Nat) :
    ∀ n r, r ≤ n → 10 * n < T →
    (∀ m, r ≤ m → m < n → strstrB e (bufAt stream m) = false ∧
      strstrB "ERROR".toList (bufAt stream m) = false) →
    wrGo stream e T r (bufPre stream r) =
      wrGo stream e T n (bufPre stream n) := by
  intro n r hrn hT hq
  generalize hk : n - r = k
  induction k generalizing r with
  | zero =>
    have : r = n := by omega
    subst this; rfl
  | succ k ih =>
    have hr : r < n := by omega
    have h10 : 10 * r < T := by omega
    obtain ⟨hqe, hqr⟩ := hq r (Nat.le_refl r) hr
    rw [wrGo_cont stream e T r (bufPre stream r) h10
      (by rw [clampApp_bufPre]; exact hqe)
      (by rw [clampApp_bufPre]; exact hqr)]
    rw [clampApp_bufPre]
    have hb : bufAt stream r = bufPre stream (r + 1) := rfl
    rw [hb]
    exact ih (r + 1) (by omega) (fun m h1 h2 => hq m (by omega) h2) (by omega)

theorem wrGo_timeout (stream : Nat → List Char) (e : List Char) (T : Nat) :
    ∀ r, (∀ m, r ≤ m → 10 * m < T → strstrB e (bufAt stream m) = false ∧
      strstrB "ERROR".toList (bufAt stream m) = false) →
    (wrGo stream e T r (bufPre stream r)).1 = false ∧
    T ≤ 10 * (wrGo stream e T r (bufPre stream r)).2.2 := by
  intro r hq
  generalize hk : T - 10 * r = k
  induction k using Nat.strong_induction_on generalizing r with
  | _ k ih =>
    by_cases h10 : 10 * r < T
    · obtain ⟨hqe, hqr⟩ := hq r (Nat.le_refl r) h10
      rw [wrGo_cont stream e T r (bufPre stream r) h10
        (by rw [clampApp_bufPre]; exact hqe)
        (by rw [clampApp_bufPre]; exact hqr)]
      rw [clampApp_bufPre]
      have hb : bufAt stream r = bufPre stream (r + 1) := rfl
      rw [hb]
      exact ih (T - 10 * (r + 1)) (by omega) (r + 1)
        (fun m h1 h2 => hq m (by omega) h2) rfl
    · rw [wrGo_stop stream e T r (bufPre stream r) h10]
      exact ⟨rfl, by simp; omega⟩

/-- C4 (amended): over any simulated response stream, `send_and_wait`
(clearing the buffer first) succeeds at the first poll round whose
accumulated buffer contains the expected substring, provided neither token
appeared at an earlier round — exiting before the timeout; it fails at the
first round whose buffer contains "ERROR" but not the expected substring
(the per-round check prefers the expected token, so "ERROR" arriving in the
same round as the expected substring does not force failure); and with
neither token ever appearing it fails only once the full timeout has
elapsed. -/
theorem c4_send_and_wait (stream : Nat → List Char) (e : List Char)
    (T n : Nat) :
    (10 * n < T → strstrB e (bufAt stream n) = true →
      (∀ m, m < n → strstrB e (bufAt stream m) = false ∧
        strstrB "ERROR".toList (bufAt stream m) = false) →
      send_and_wait stream e T = (true, bufAt stream n, n) ∧ 10 * n < T) ∧
    (10 * n < T → strstrB e (bufAt stream n) = false →
      strstrB "ERROR".toList (bufAt stream n) = true →
      (∀ m, m < n → strstrB e (bufAt stream m) = false ∧
        strstrB "ERROR".toList (bufAt stream m) = false) →
      (send_and_wait stream e T).1 = false) ∧
    ((∀ m, 10 * m < T → strstrB e (bufAt stream m) = false ∧
        strstrB "ERROR".toList (bufAt stream m) = false) →
      (send_and_wait stream e T).1 = false ∧
      T ≤ 10 * (send_and_wait stream e T).2.2) := by
  have hsw : send_and_wait stream e T = wrGo stream e T 0 (bufPre stream 0) :=
    rfl
  refine ⟨?_, ?_, ?_⟩
  · intro hT hfound hq
    rw [hsw, wrGo_quiet stream e T n 0 (Nat.zero_le n) hT
      (fun m h1 h2 => hq m h2)]
    rw [wrGo_found stream e T n (bufPre stream n) hT
      (by rw [clampApp_bufPre]; exact hfound)]
    rw [clampApp_bufPre]
    exact ⟨rfl, hT⟩
  · intro hT hnf herr hq
    rw [hsw, wrGo_quiet stream e T n 0 (Nat.zero_le n) hT
      (fun m h1 h2 => hq m h2)]
    rw [wrGo_err stream e T n (bufPre stream n) hT
      (by rw [clampApp_bufPre]; exact hnf)
      (by rw [clampApp_bufPre]; exact herr)]
  · intro hq
    rw [hsw]
    exact wrGo_timeout stream e T 0 (fun m h1 h2 => hq m h2)

/-- C4 counterexample: the stream delivers "ERROR" before the expected
substring "OK" (both in the round-0 chunk), yet the call returns success —
the per-round check tests the expected substring first. -/
theorem c4_send_and_wait_counterexample :
    (send_and_wait ceStream "OK".toList 100).1 = true := by
  have h : send_and_wait ceStream "OK".toList 100 =
      wrGo ceStream "OK".toList 100 0 [] := rfl
  rw [h, wrGo_found ceStream "OK".toList 100 0 [] (by omega) (by decide)]

theorem c4_send_and_wait_witness :
    (10 * 0 < 100 → strstrB "OK".toList (bufAt ceStream 0) = true →
      (∀ m, m < 0 → strstrB "OK".toList (bufAt ceStream m) = false ∧
        strstrB "ERROR".toList (bufAt ceStream m) = false) →
      send_and_wait ceStream "OK".toList 100 =
        (true, bufAt ceStream 0, 0) ∧ 10 * 0 < 100) ∧
    (send_and_wait ceStream "OK".toList 100 = (true, bufAt ceStream 0, 0) ∧
      10 * 0 < 100) := by
  have h := c4_send_and_wait ceStream "OK".toList 100 0
  exact ⟨h.1, h.1 (by omega) (by decide) (fun m hm => absurd hm (by omega))⟩

theorem clampApp_length {buf : List Char} (chunk : List Char)
    (h : buf.length ≤ 511) : (clampApp buf chunk).length ≤ 511 := by
  simp [clampApp, List.length_take]
  omega

theorem wrGo_rx_len (stream : Nat → List Char) (e : List Char) (T : Nat) :
    ∀ r (buf : List Char), buf.length ≤ 511 →
      (wrGo stream e T r buf).2.1.length ≤ 511 := by
  intro r buf h
  generalize hk : T - 10 * r = k
  induction k using Nat.strong_induction_on generalizing r buf with
  | _ k ih =>
    by_cases h10 : 10 * r < T
    · have hb1 : (clampApp buf (stream r)).length ≤ 511 :=
        clampApp_length (stream r) h
      by_cases hf : strstrB e (clampApp buf (stream r)) = true
      · rw [wrGo_found stream e T r buf h10 hf]
        exact hb1
      · have hf2 : strstrB e (clampApp buf (stream r)) = false := by
          simpa using hf
        by_cases he : strstrB "ERROR".toList (clampApp buf (stream r)) = true
        · rw [wrGo_err stream e T r buf h10 hf2 he]
          exact hb1
        · have he2 : strstrB "ERROR".toList (clampApp buf (stream r))
              = false := by simpa using he
          rw [wrGo_cont stream e T r buf h10 hf2 he2]
          exact ih (T - 10 * (r + 1)) (by omega) (r + 1) _ hb1 rfl
    · rw [wrGo_stop stream e T r buf h10]
      exact h

/-- C9: the response-buffer invariant: starting from the cleared buffer,
every modelled operation that touches it (`clear_rx_buffer`, the clamped
append of a read, `wait_response`, `send_and_wait`, `A7600_MQTT_Process`)
keeps `rx_len` at most 511, so `rx_buffer[rx_len]` stays a valid in-bounds
null-terminator slot of the 512-byte buffer. -/
theorem c9_rx_buffer_invariant :
    clear_rx_buffer.length ≤ 511 ∧
    (∀ buf chunk : List Char, buf.length ≤ 511 →
      (clampApp buf chunk).length ≤ 511) ∧
    (∀ (stream : Nat → List Char) (e : List Char) (T : Nat)
        (buf : List Char), buf.length ≤ 511 →
      (wait_response stream e T buf).2.1.length ≤ 511) ∧
    (∀ (stream : Nat → List Char) (e : List Char) (T : Nat),
      (send_and_wait stream e T).2.1.length ≤ 511) ∧
    (∀ (h : Handle) (cb : Bool) (chunk : List Char),
      h.rx_buffer.length ≤ 511 →
      (A7600_MQTT_Process h cb chunk).1.rx_buffer.length ≤ 511) := by
  refine ⟨by simp [clear_rx_buffer], ?_, ?_, ?_, ?_⟩
  · intro buf chunk h
    exact clampApp_length chunk h
  · intro stream e T buf h
    exact wrGo_rx_len stream e T 0 buf h
  · intro stream e T
    exact wrGo_rx_len stream e T 0 [] (by simp)
  · intro h cb chunk hlen
    have hb : (clampApp h.rx_buffer chunk).length ≤ 511 :=
      clampApp_length chunk hlen
    unfold A7600_MQTT_Process
    split_ifs <;> simp_all <;> split_ifs <;> simp_all

theorem c9_rx_buffer_invariant_witness :
    ((clampApp "abc".toList "xyz".toList).length ≤ 511) ∧
    ((send_and_wait ceStream "OK".toList 100).2.1.length ≤ 511) ∧
    ((A7600_MQTT_Process connHandle true "+CMQTTRX".toList).1.rx_buffer.length
      ≤ 511) := by
  have h := c9_rx_buffer_invariant
  exact ⟨h.2.1 "abc".toList "xyz".toList (by decide),
    h.2.2.2.1 ceStream "OK".toList 100,
    h.2.2.2.2 connHandle true "+CMQTTRX".toList (by decide)⟩
theorem mbp_nil : MavlinkBridge_Process [] = ([], []) := by
  simp [MavlinkBridge_Process]

theorem mbp_drop (b : Nat) (rest : List Nat) (hb : b ≠ 253) :
    MavlinkBridge_Process (b :: rest) = MavlinkBridge_Process rest := by
  rw [MavlinkBridge_Process]
  rw [if_neg hb]

theorem mbp_over (b1 b2 : Nat) (tl : List Nat)
    (h : 300 < packetLen b1 b2) :
    MavlinkBridge_Process (253 :: b1 :: b2 :: tl) =
      MavlinkBridge_Process (b1 :: b2 :: tl) := by
  rw [MavlinkBridge_Process]
  simp [h]

theorem mbp_frame (b1 b2 : Nat) (tl : List Nat)
    (h300 : packetLen b1 b2 ≤ 300)
    (hlen : packetLen b1 b2 ≤ tl.length + 3) :
    MavlinkBridge_Process (253 :: b1 :: b2 :: tl) =
      (to_base64 ((253 :: b1 :: b2 :: tl).take (packetLen b1 b2)) ::
        (MavlinkBridge_Process
          ((253 :: b1 :: b2 :: tl).drop (packetLen b1 b2))).1,
       (MavlinkBridge_Process
          ((253 :: b1 :: b2 :: tl).drop (packetLen b1 b2))).2) := by
  rw [MavlinkBridge_Process]
  have h1 : ¬(300 < packetLen b1 b2) := by omega
  have h2 : packetLen b1 b2 ≤ tl.length + 1 + 1 + 1 := by omega
  simp [h1, h2]

/-- C5: the frame synchronizer: a leading non-magic byte is dropped one
byte at a time; total frame length is 10 + payload_len + 2, plus 13 when
bit 0 of the incompatibility flags is set; a computed length above the
300-byte ceiling drops exactly one byte and rescans without publishing; a
fully buffered frame is encoded (Base64 build) and published exactly once
with exactly that many bytes removed, preserving the trailing bytes; and
the concrete stream of one garbage byte, a 21-byte unsigned frame and a
25-byte signed frame yields exactly those two encoded publish events. -/
theorem c5_frame_sync :
    (∀ (b : Nat) (rest : List Nat), b ≠ 253 →
      MavlinkBridge_Process (b :: rest) = MavlinkBridge_Process rest) ∧
    (∀ b1 b2 : Nat, packetLen b1 b2 =
      10 + b1 + 2 + (if b2 % 2 = 1 then 13 else 0)) ∧
    (∀ (b1 b2 : Nat) (tl : List Nat), 300 < packetLen b1 b2 →
      MavlinkBridge_Process (253 :: b1 :: b2 :: tl) =
        MavlinkBridge_Process (b1 :: b2 :: tl)) ∧
    (∀ (b1 b2 : Nat) (tl : List Nat), packetLen b1 b2 ≤ 300 →
      packetLen b1 b2 ≤ tl.length + 3 →
      MavlinkBridge_Process (253 :: b1 :: b2 :: tl) =
        (to_base64 ((253 :: b1 :: b2 :: tl).take (packetLen b1 b2)) ::
          (MavlinkBridge_Process
            ((253 :: b1 :: b2 :: tl).drop (packetLen b1 b2))).1,
         (MavlinkBridge_Process
            ((253 :: b1 :: b2 :: tl).drop (packetLen b1 b2))).2)) ∧
    (MavlinkBridge_Process (66 :: (mavFrame1 ++ mavFrame2)) =
      ([to_base64 mavFrame1, to_base64 mavFrame2], [])) := by
  refine ⟨mbp_drop, fun b1 b2 => rfl, mbp_over, mbp_frame, ?_⟩
  rw [mbp_drop 66 _ (by omega)]
  have e1 : mavFrame1 ++ mavFrame2 =
      253 :: 9 :: 0 :: (mavFrame1.drop 3 ++ mavFrame2) := rfl
  rw [e1, mbp_frame 9 0 _ (by decide) (by decide)]
  have e2 : (253 :: 9 :: 0 :: (mavFrame1.drop 3 ++ mavFrame2)).take
      (packetLen 9 0) = mavFrame1 := by decide
  have e3 : (253 :: 9 :: 0 :: (mavFrame1.drop 3 ++ mavFrame2)).drop
      (packetLen 9 0) = mavFrame2 := by decide
  rw [e2, e3]
  have h2 : MavlinkBridge_Process mavFrame2 =
      (to_base64 mavFrame2 :: (MavlinkBridge_Process ([] : List Nat)).1,
       (MavlinkBridge_Process ([] : List Nat)).2) := by
    have hf := mbp_frame 0 1 (mavFrame2.drop 3) (by decide) (by decide)
    have ht : (253 : Nat) :: 0 :: 1 :: mavFrame2.drop 3 = mavFrame2 := rfl
    rw [ht] at hf
    have e4 : mavFrame2.take (packetLen 0 1) = mavFrame2 := by decide
    have e5 : mavFrame2.drop (packetLen 0 1) = ([] : List Nat) := by decide
    rw [e4, e5] at hf
    exact hf
  rw [h2, mbp_nil]

theorem c5_frame_sync_witness :
    (MavlinkBridge_Process (66 :: mavFrame1) =
      MavlinkBridge_Process mavFrame1) ∧
    (MavlinkBridge_Process (253 :: 289 :: 0 :: ([] : List Nat)) =
      MavlinkBridge_Process (289 :: 0 :: ([] : List Nat))) ∧
    (MavlinkBridge_Process (253 :: 0 :: 1 :: mavFrame2.drop 3) =
      (to_base64 ((253 :: 0 :: 1 :: mavFrame2.drop 3).take (packetLen 0 1)) ::
        (MavlinkBridge_Process
          ((253 :: 0 :: 1 :: mavFrame2.drop 3).drop (packetLen 0 1))).1,
       (MavlinkBridge_Process
          ((253 :: 0 :: 1 :: mavFrame2.drop 3).drop (packetLen 0 1))).2)) :=
  ⟨c5_frame_sync.1 66 mavFrame1 (by omega),
   c5_frame_sync.2.2.1 289 0 [] (by decide),
   c5_frame_sync.2.2.2.1 0 1 (mavFrame2.drop 3) (by decide) (by decide)⟩
theorem hexVal_hexDigit : ∀ d, d < 16 → hexVal (hexDigit d) = d := by decide

theorem from_hex_to_hex (x : List Nat) (h : ∀ b ∈ x, b < 256) :
    from_hex (to_hex x) = x := by
  induction x with
  | nil => rfl
  | cons b t ih =>
    have hb : b < 256 := h b (by simp)
    rw [to_hex, from_hex]
    rw [hexVal_hexDigit _ (Nat.mod_lt _ (by omega)),
        hexVal_hexDigit _ (Nat.mod_lt _ (by omega))]
    rw [ih (fun y hy => h y (by simp [hy]))]
    congr 1
    omega

theorem from_hex_odd_aux :
    ∀ n (l : List Char), l.length ≤ n → l.length % 2 = 1 →
      from_hex l = from_hex l.dropLast := by
  intro n
  induction n with
  | zero =>
    intro l h1 h2
    omega
  | succ n ih =>
    intro l h1 h2
    match l with
    | [] => simp at h2
    | [c] => rfl
    | c1 :: c2 :: t =>
      have ht : t.length % 2 = 1 := by
        simp at h2
        omega
      have htne : t ≠ [] := by
        intro he
        rw [he] at ht
        simp at ht
      match t with
      | u :: us =>
        rw [List.dropLast_cons₂]
        rw [show (c2 :: u :: us).dropLast = c2 :: (u :: us).dropLast from
          List.dropLast_cons₂ ..]
        rw [from_hex, from_hex]
        congr 1
        exact ih (u :: us) (by simp at h1 ⊢; omega) ht

theorem b64_val_b64Char : ∀ n, n < 64 → b64_val (b64Char n) = (n : Int) := by
  decide

theorem b64Char_ne_pad : ∀ n, n < 64 → b64Char n ≠ '=' := by decide

theorem nextTok_cons_sig (c : Char) (l : List Char)
    (h : b64_val c ≠ -1 ∨ c = '=') : nextTok (c :: l) = some (c, l) := by
  have hcond : ¬(b64_val c = -1 ∧ ¬c = '=') := by
    rcases h with h | h
    · exact fun hc => h hc.1
    · exact fun hc => hc.2 h
  simp [nextTok, b64Skip, List.dropWhile_cons, hcond]

theorem nextTok_nil : nextTok ([] : List Char) = none := rfl

theorem from_base64_go_fuel :
    ∀ f1 f2 (l : List Char), l.length ≤ f1 → l.length ≤ f2 →
      from_base64_go f1 l = from_base64_go f2 l := by
  intro f1
  induction f1 using Nat.strong_induction_on with
  | _ f1 ih =>
    intro f2 l h1 h2
    match f1, f2 with
    | 0, f2 =>
      have : l = [] := by
        cases l with
        | nil => rfl
        | cons a b => simp at h1
      subst this
      cases f2 with
      | zero => rfl
      | succ f2 => simp [from_base64_go, nextTok_nil]
    | f1 + 1, 0 =>
      have : l = [] := by
        cases l with
        | nil => rfl
        | cons a b => simp at h2
      subst this
      simp [from_base64_go, nextTok_nil]
    | f1 + 1, f2 + 1 =>
      rcases hn1 : nextTok l with _ | ⟨c1, r1⟩
      · simp [from_base64_go, hn1]
      · rcases hn2 : nextTok r1 with _ | ⟨c2, r2⟩
        · simp [from_base64_go, hn1, hn2]
        · rcases hn3 : nextTok r2 with _ | ⟨c3, r3⟩
          · simp [from_base64_go, hn1, hn2, hn3]
          · rcases hn4 : nextTok r3 with _ | ⟨c4, r4⟩
            · simp [from_base64_go, hn1, hn2, hn3, hn4]
            · have l1 := nextTok_length_lt hn1
              have l2 := nextTok_length_lt hn2
              have l3 := nextTok_length_lt hn3
              have l4 := nextTok_length_lt hn4
              simp only [from_base64_go, hn1, hn2, hn3, hn4]
              congr 1
              exact ih f1 (by omega) f2 r4 (by omega) (by omega)

theorem from_base64_block (c1 c2 c3 c4 : Char) (s : List Char)
    (h1 : b64_val c1 ≠ -1 ∨ c1 = '=') (h2 : b64_val c2 ≠ -1 ∨ c2 = '=')
    (h3 : b64_val c3 ≠ -1 ∨ c3 = '=') (h4 : b64_val c4 ≠ -1 ∨ c4 = '=') :
    from_base64 (c1 :: c2 :: c3 :: c4 :: s) =
      b64Group c1 c2 c3 c4 ++ from_base64 s := by
  show from_base64_go (c1 :: c2 :: c3 :: c4 :: s).length _ = _
  have hl : (c1 :: c2 :: c3 :: c4 :: s).length = s.length + 4 := by simp
  rw [hl]
  show from_base64_go (s.length + 3 + 1) _ = _
  simp only [from_base64_go, nextTok_cons_sig c1 _ h1,
    nextTok_cons_sig c2 _ h2, nextTok_cons_sig c3 _ h3,
    nextTok_cons_sig c4 _ h4]
  congr 1
  exact from_base64_go_fuel (s.length + 3) s.length s (by omega) (by omega)

theorem dec_enc4_full (a b c : Nat) (ha : a < 256) (hb : b < 256)
    (hc : c < 256) (s : List Char) :
    from_base64 (enc4 a b c ++ s) = a :: b :: c :: from_base64 s := by
  have h64 : ∀ m : Nat, m % 64 < 64 := fun m => Nat.mod_lt _ (by omega)
  have hne3 : b64Char ((a * 65536 + b * 256 + c) / 64 % 64) ≠ '=' :=
    b64Char_ne_pad _ (h64 _)
  have hne4 : b64Char ((a * 65536 + b * 256 + c) % 64) ≠ '=' :=
    b64Char_ne_pad _ (h64 _)
  unfold enc4
  rw [show ([b64Char ((a * 65536 + b * 256 + c) / 262144 % 64),
      b64Char ((a * 65536 + b * 256 + c) / 4096 % 64),
      b64Char ((a * 65536 + b * 256 + c) / 64 % 64),
      b64Char ((a * 65536 + b * 256 + c) % 64)] ++ s) =
    b64Char ((a * 65536 + b * 256 + c) / 262144 % 64) ::
      b64Char ((a * 65536 + b * 256 + c) / 4096 % 64) ::
      b64Char ((a * 65536 + b * 256 + c) / 64 % 64) ::
      b64Char ((a * 65536 + b * 256 + c) % 64) :: s from rfl]
  rw [from_base64_block _ _ _ _ _
    (Or.inl (by rw [b64_val_b64Char _ (h64 _)]; omega))
    (Or.inl (by rw [b64_val_b64Char _ (h64 _)]; omega))
    (Or.inl (by rw [b64_val_b64Char _ (h64 _)]; omega))
    (Or.inl (by rw [b64_val_b64Char _ (h64 _)]; omega))]
  simp only [b64Group, b64_val_b64Char _ (h64 _), hne3, hne4,
    Int.natCast_nonneg, and_self, if_true, ite_true, ite_false,
    Int.toNat_natCast, List.cons_append, List.nil_append]
  rw [if_pos hne3, if_pos hne4]
  simp only [List.cons_append, List.cons.injEq]
  refine ⟨?_, ?_, ?_, rfl⟩ <;> omega


theorem toB64Groups_length :
    ∀ t : List Nat, (toB64Groups t).length = 4 * ((t.length + 2) / 3) := by
  intro t
  induction t using toB64Groups.induct with
  | case1 => rfl
  | case2 a => simp [toB64Groups, enc4]
  | case3 a b => simp [toB64Groups, enc4]
  | case4 a b c t ih =>
    show (enc4 a b c ++ toB64Groups t).length = _
    rw [List.length_append, ih]
    show 4 + 4 * ((t.length + 2) / 3) = 4 * ((t.length + 3 + 2) / 3)
    omega

theorem pad_not_mem_enc4 (a b c : Nat) : '=' ∉ enc4 a b c := by
  have h64 : ∀ m : Nat, m % 64 < 64 := fun m => Nat.mod_lt _ (by omega)
  unfold enc4
  intro hmem
  simp only [List.mem_cons, List.not_mem_nil, or_false] at hmem
  rcases hmem with h | h | h | h <;>
    exact b64Char_ne_pad _ (h64 _) h.symm

theorem pad_not_mem_groups : ∀ t : List Nat, '=' ∉ toB64Groups t := by
  intro t
  induction t using toB64Groups.induct with
  | case1 => simp [toB64Groups]
  | case2 a => exact pad_not_mem_enc4 a 0 0
  | case3 a b => exact pad_not_mem_enc4 a b 0
  | case4 a b c t ih =>
    show '=' ∉ enc4 a b c ++ toB64Groups t
    rw [List.mem_append]
    rintro (h | h)
    · exact pad_not_mem_enc4 a b c h
    · exact ih h

theorem toB64Groups_ne_nil (t : List Nat) (ht : t ≠ []) :
    toB64Groups t ≠ [] := by
  intro he
  have := toB64Groups_length t
  rw [he] at this
  have hlen : t.length ≠ 0 := by
    intro h0
    exact ht (List.eq_nil_of_length_eq_zero h0)
  simp at this
  omega

theorem to_base64_cons3 (a b c : Nat) (t : List Nat) :
    to_base64 (a :: b :: c :: t) = enc4 a b c ++ to_base64 t := by
  unfold to_base64
  have hg : toB64Groups (a :: b :: c :: t) = enc4 a b c ++ toB64Groups t :=
    rfl
  have hl : (a :: b :: c :: t).length % 3 = t.length % 3 := by simp; omega
  rw [hg, hl]
  by_cases h1 : t.length % 3 = 1
  · have htne : t ≠ [] := by
      intro he; rw [he] at h1; simp at h1
    have hgl := toB64Groups_length t
    have hgne : toB64Groups t ≠ [] := toB64Groups_ne_nil t htne
    have hdne : (toB64Groups t).dropLast ≠ [] := by
      intro he
      have := congrArg List.length he
      rw [List.length_dropLast, hgl] at this
      simp at this
      omega
    rw [if_pos h1, if_pos h1]
    rw [List.dropLast_append_of_ne_nil _ hgne,
        List.dropLast_append_of_ne_nil _ hdne]
    simp [List.append_assoc]
  · by_cases h2 : t.length % 3 = 2
    · have htne : t ≠ [] := by
        intro he; rw [he] at h2; simp at h2
      have hgne : toB64Groups t ≠ [] := toB64Groups_ne_nil t htne
      rw [if_neg h1, if_pos h2, if_neg h1, if_pos h2]
      rw [List.dropLast_append_of_ne_nil _ hgne]
      simp [List.append_assoc]
    · rw [if_neg h1, if_neg h2, if_neg h1, if_neg h2]

theorem dec_enc_pad1 (a : Nat) (ha : a < 256) :
    from_base64 (to_base64 [a]) = [a] := by
  have h64 : ∀ m : Nat, m % 64 < 64 := fun m => Nat.mod_lt _ (by omega)
  have he : to_base64 [a] =
      b64Char ((a * 65536 + 0 * 256 + 0) / 262144 % 64) ::
        b64Char ((a * 65536 + 0 * 256 + 0) / 4096 % 64) ::
        '=' :: '=' :: ([] : List Char) := rfl
  rw [he]
  rw [from_base64_block _ _ _ _ _
    (Or.inl (by rw [b64_val_b64Char _ (h64 _)]; omega))
    (Or.inl (by rw [b64_val_b64Char _ (h64 _)]; omega))
    (Or.inr rfl) (Or.inr rfl)]
  simp only [b64Group, b64_val_b64Char _ (h64 _), Int.natCast_nonneg,
    and_self, if_true, ite_true, Int.toNat_natCast, ne_eq,
    not_true_eq_false, ite_false, if_pos, reduceIte]
  show [(a * 65536 + 0 * 256 + 0) / 262144 % 64 * 4 +
    (a * 65536 + 0 * 256 + 0) / 4096 % 64 / 16 % 4] ++ from_base64 [] = [a]
  have hnil : from_base64 ([] : List Char) = [] := rfl
  rw [hnil]
  simp only [List.append_nil, List.cons.injEq, and_true]
  omega

theorem dec_enc_pad2 (a b : Nat) (ha : a < 256) (hb : b < 256) :
    from_base64 (to_base64 [a, b]) = [a, b] := by
  have h64 : ∀ m : Nat, m % 64 < 64 := fun m => Nat.mod_lt _ (by omega)
  have he : to_base64 [a, b] =
      b64Char ((a * 65536 + b * 256 + 0) / 262144 % 64) ::
        b64Char ((a * 65536 + b * 256 + 0) / 4096 % 64) ::
        b64Char ((a * 65536 + b * 256 + 0) / 64 % 64) ::
        '=' :: ([] : List Char) := rfl
  rw [he]
  have hne3 : b64Char ((a * 65536 + b * 256 + 0) / 64 % 64) ≠ '=' :=
    b64Char_ne_pad _ (h64 _)
  rw [from_base64_block _ _ _ _ _
    (Or.inl (by rw [b64_val_b64Char _ (h64 _)]; omega))
    (Or.inl (by rw [b64_val_b64Char _ (h64 _)]; omega))
    (Or.inl (by rw [b64_val_b64Char _ (h64 _)]; omega))
    (Or.inr rfl)]
  simp only [b64Group, b64_val_b64Char _ (h64 _), hne3, Int.natCast_nonneg,
    and_self, if_true, ite_true, Int.toNat_natCast, ne_eq,
    not_true_eq_false, ite_false, reduceIte]
  simp only [not_false_eq_true, if_true, ite_true]
  have hnil : from_base64 ([] : List Char) = [] := rfl
  rw [hnil]
  simp only [List.cons_append, List.nil_append, List.append_nil,
    List.cons.injEq, and_true]
  constructor <;> omega

theorem from_to_base64_aux :
    ∀ n (x : List Nat), x.length ≤ n → (∀ b ∈ x, b < 256) →
      from_base64 (to_base64 x) = x := by
  intro n
  induction n with
  | zero =>
    intro x h1 h2
    have hx : x = [] := by
      cases x with
      | nil => rfl
      | cons a t => simp at h1
    subst hx
    rfl
  | succ n ih =>
    intro x h1 h2
    match x with
    | [] => rfl
    | [a] => exact dec_enc_pad1 a (h2 a (by simp))
    | [a, b] => exact dec_enc_pad2 a b (h2 a (by simp)) (h2 b (by simp))
    | a :: b :: c :: t =>
      rw [to_base64_cons3,
        dec_enc4_full a b c (h2 a (by simp)) (h2 b (by simp))
          (h2 c (by simp))]
      rw [ih t (by simp at h1; omega) (fun y hy => h2 y (by simp [hy]))]

theorem to_base64_pad1 (x : List Nat) (h : x.length % 3 = 1) :
    ∃ y, to_base64 x = y ++ ['=', '='] ∧ '=' ∉ y := by
  refine ⟨(toB64Groups x).dropLast.dropLast, ?_, ?_⟩
  · simp [to_base64, h]
  · intro hm
    exact pad_not_mem_groups x
      (List.mem_of_mem_dropLast (List.mem_of_mem_dropLast hm))

theorem to_base64_pad2 (x : List Nat) (h : x.length % 3 = 2) :
    ∃ y, to_base64 x = y ++ ['='] ∧ '=' ∉ y := by
  refine ⟨(toB64Groups x).dropLast, ?_, ?_⟩
  · simp [to_base64, h]
  · intro hm
    exact pad_not_mem_groups x (List.mem_of_mem_dropLast hm)

/-- C6: codec algebra: hex and Base64 decode∘encode is the identity on
byte sequences; Base64 padding is standard ('==' for length ≡ 1 mod 3, '='
for length ≡ 2 mod 3, with no '=' earlier in the text); and hex decoding of
an odd-length string ignores the final unpaired character. -/
theorem c6_codec_roundtrip :
    (∀ x : List Nat, (∀ b ∈ x, b < 256) → from_hex (to_hex x) = x) ∧
    (∀ x : List Nat, (∀ b ∈ x, b < 256) → from_base64 (to_base64 x) = x) ∧
    (∀ x : List Nat, x.length % 3 = 1 →
      ∃ y, to_base64 x = y ++ ['=', '='] ∧ '=' ∉ y) ∧
    (∀ x : List Nat, x.length % 3 = 2 →
      ∃ y, to_base64 x = y ++ ['='] ∧ '=' ∉ y) ∧
    (∀ l : List Char, l.length % 2 = 1 → from_hex l = from_hex l.dropLast) :=
  ⟨from_hex_to_hex,
   fun x h => from_to_base64_aux x.length x (Nat.le_refl _) h,
   to_base64_pad1, to_base64_pad2,
   fun l h => from_hex_odd_aux l.length l (Nat.le_refl _) h⟩

theorem c6_codec_roundtrip_witness :
    from_hex (to_hex [0, 171, 255]) = [0, 171, 255] ∧
    from_base64 (to_base64 [0, 171, 255, 7]) = [0, 171, 255, 7] ∧
    (∃ y, to_base64 [1] = y ++ ['=', '='] ∧ '=' ∉ y) ∧
    (∃ y, to_base64 [1, 2] = y ++ ['='] ∧ '=' ∉ y) ∧
    from_hex ['A', 'B', 'C'] = from_hex (['A', 'B', 'C'].dropLast) :=
  ⟨c6_codec_roundtrip.1 [0, 171, 255] (by decide),
   c6_codec_roundtrip.2.1 [0, 171, 255, 7] (by decide),
   c6_codec_roundtrip.2.2.1 [1] (by decide),
   c6_codec_roundtrip.2.2.2.1 [1, 2] (by decide),
   c6_codec_roundtrip.2.2.2.2 ['A', 'B', 'C'] (by decide)⟩

/-- C1: the inbound forwarding path at a concrete complete message: the
Pub/Sub receive path does invoke the registered callback — but with an
empty topic string — and the bridge handler then drops the message (its
`strstr(topic, "mavlink/rx")` filter cannot match an empty topic), so no
bytes are ever written to the telemetry UART; the same handler invoked with
the subscribed topic would forward decoded bytes, locating the defect in
the topic handed over by `A7600_MQTT_Process`. -/
theorem c1_inbound_forwarding_broken :
    (A7600_MQTT_Process c1Handle true c1Chunk).2.map Prod.fst = [""] ∧
    (processThenBridge c1Handle c1Chunk).2 = [none] ∧
    (MavlinkBridge_OnMessage "uav4g/mavlink/rx"
      ((A7600_MQTT_Process c1Handle true c1Chunk).2.headD ("", [])).2).isSome
      = true := by
  decide

end Uav4g
